import Mathlib

/-!
Shallow embedding of the `financial-signal-complexity` repository.

Prices are modelled as rationals (`ℚ`), Python per-symbol dictionaries as
total functions `String → _` whose value at an absent key is the dictionary
access default (`[]`, `0`, `none`), and fallible Python code (a raised
`ValueError` or `ZeroDivisionError`) as `Except String`.

Source files embedded: `src/strategies.py` (the three strategy classes),
`src/main.py` (`run_strategy`), `src/profiler.py` (the benchmarking
harness).  Wall-clock readings, cProfile text and memory-sampler series are
effects of the environment; they enter the harness embedding as explicit
oracle parameters, exactly where the Python calls `time.perf_counter`,
`pstats` and `memory_usage`.
-/

/-- Immutable market tick (`models.MarketDataPoint`); the timestamp is an
abstract instant, modelled as a natural number. -/
structure MarketDataPoint where
  timestamp : Nat
  symbol : String
  price : ℚ

/-- Signal record (`models.Signal`); `meta` models the optional dict of
strategy diagnostics (keys `"average"` and `"window"`). -/
structure Signal where
  timestamp : Nat
  symbol : String
  side : String
  price : ℚ
  meta : List (String × ℚ)
deriving DecidableEq

/-- State of `NaiveMovingAverageStrategy`: per-symbol full price history. -/
structure NaiveMovingAverageStrategy where
  price_history : String → List ℚ

/-- `NaiveMovingAverageStrategy.__init__`: empty history dict. -/
def NaiveMovingAverageStrategy.init : NaiveMovingAverageStrategy :=
  ⟨fun _ => []⟩

/-- `NaiveMovingAverageStrategy.generate_signals`: append the price to the
symbol's history, recompute the average from scratch, emit BUY above the
average, SELL below it, nothing on a tie.  Python division raises on a zero
denominator, hence the `Except`. -/
def NaiveMovingAverageStrategy.generate_signals (st : NaiveMovingAverageStrategy)
    (tick : MarketDataPoint) :
    Except String (NaiveMovingAverageStrategy × List Signal) :=
  let prices := st.price_history tick.symbol ++ [tick.price]
  let st' : NaiveMovingAverageStrategy :=
    ⟨fun s => if s = tick.symbol then prices else st.price_history s⟩
  if prices.length = 0 then .error "division by zero"
  else
    let avg_price := prices.sum / (prices.length : ℚ)
    if avg_price < tick.price then
      .ok (st', [{ timestamp := tick.timestamp, symbol := tick.symbol,
                   side := "BUY", price := tick.price,
                   meta := [("average", avg_price)] }])
    else if tick.price < avg_price then
      .ok (st', [{ timestamp := tick.timestamp, symbol := tick.symbol,
                   side := "SELL", price := tick.price,
                   meta := [("average", avg_price)] }])
    else
      .ok (st', [])

/-- State of `WindowedMovingAverageStrategy`: the configured window size,
per-symbol bounded buffer (deque, oldest element first) and per-symbol
running sum. -/
structure WindowedMovingAverageStrategy where
  window_size : ℤ
  buffers : String → List ℚ
  running_sum : String → ℚ

/-- `WindowedMovingAverageStrategy.__init__`: raises
`ValueError("window_size must be positive")` when `window_size <= 0`,
otherwise produces the instance with empty dicts. -/
def WindowedMovingAverageStrategy.init (window_size : ℤ) :
    Except String WindowedMovingAverageStrategy :=
  if window_size ≤ 0 then .error "window_size must be positive"
  else .ok { window_size := window_size, buffers := fun _ => [],
             running_sum := fun _ => 0 }

/-- `WindowedMovingAverageStrategy.generate_signals`: push the price and add
it to the running sum; if the buffer now exceeds the window, pop the oldest
price and subtract it; store the sum; average over the buffer length; same
BUY/SELL/none rule as the naive variant, with window metadata. -/
def WindowedMovingAverageStrategy.generate_signals
    (st : WindowedMovingAverageStrategy) (tick : MarketDataPoint) :
    Except String (WindowedMovingAverageStrategy × List Signal) :=
  let buffer0 := st.buffers tick.symbol ++ [tick.price]
  let sum0 := st.running_sum tick.symbol + tick.price
  let popped : Except String (List ℚ × ℚ) :=
    if (buffer0.length : ℤ) > st.window_size then
      match buffer0 with
      | [] => .error "pop from an empty deque"
      | removed :: rest => .ok (rest, sum0 - removed)
    else .ok (buffer0, sum0)
  match popped with
  | .error e => .error e
  | .ok (buffer, current_sum) =>
    let st' : WindowedMovingAverageStrategy :=
      { window_size := st.window_size,
        buffers := fun s => if s = tick.symbol then buffer else st.buffers s,
        running_sum := fun s => if s = tick.symbol then current_sum
                                else st.running_sum s }
    if buffer.length = 0 then .error "division by zero"
    else
      let avg_price := current_sum / (buffer.length : ℚ)
      if avg_price < tick.price then
        .ok (st', [{ timestamp := tick.timestamp, symbol := tick.symbol,
                     side := "BUY", price := tick.price,
                     meta := [("average", avg_price),
                              ("window", (st.window_size : ℚ))] }])
      else if tick.price < avg_price then
        .ok (st', [{ timestamp := tick.timestamp, symbol := tick.symbol,
                     side := "SELL", price := tick.price,
                     meta := [("average", avg_price),
                              ("window", (st.window_size : ℚ))] }])
      else
        .ok (st', [])

/-- State of `OptimizedMovingAverageStrategy`: windowed buffers and sums plus
the per-symbol last emitted side (`None` for a symbol never emitted on). -/
structure OptimizedMovingAverageStrategy where
  window_size : ℤ
  buffers : String → List ℚ
  running_sums : String → ℚ
  last_signal : String → Option String

/-- The instance `OptimizedMovingAverageStrategy.__init__` builds: empty
dicts, the given `window_size` stored unchecked. -/
def OptimizedMovingAverageStrategy.mkState (window_size : ℤ) :
    OptimizedMovingAverageStrategy :=
  { window_size := window_size, buffers := fun _ => [],
    running_sums := fun _ => 0, last_signal := fun _ => none }

/-- `OptimizedMovingAverageStrategy.__init__`: performs no validation of
`window_size`, so construction always succeeds. -/
def OptimizedMovingAverageStrategy.init (window_size : ℤ) :
    Except String OptimizedMovingAverageStrategy :=
  .ok (OptimizedMovingAverageStrategy.mkState window_size)

/-- `OptimizedMovingAverageStrategy.generate_signals`: same buffer and
running-sum update as the windowed variant; the side is BUY when the price
is strictly above the average and SELL otherwise (a tie resolves to SELL);
a bare side string is emitted only when it differs from the last emitted
side for the symbol (edge-triggered). -/
def OptimizedMovingAverageStrategy.generate_signals
    (st : OptimizedMovingAverageStrategy) (tick : MarketDataPoint) :
    Except String (OptimizedMovingAverageStrategy × List String) :=
  let buf0 := st.buffers tick.symbol ++ [tick.price]
  let s0 := st.running_sums tick.symbol + tick.price
  let popped : Except String (List ℚ × ℚ) :=
    if (buf0.length : ℤ) > st.window_size then
      match buf0 with
      | [] => .error "pop from an empty deque"
      | removed :: rest => .ok (rest, s0 - removed)
    else .ok (buf0, s0)
  match popped with
  | .error e => .error e
  | .ok (buf, s) =>
    if buf.length = 0 then .error "division by zero"
    else
      let avg := s / (buf.length : ℚ)
      let signal := if avg < tick.price then "BUY" else "SELL"
      let st1 : OptimizedMovingAverageStrategy :=
        { window_size := st.window_size,
          buffers := fun x => if x = tick.symbol then buf else st.buffers x,
          running_sums := fun x => if x = tick.symbol then s
                                   else st.running_sums x,
          last_signal := st.last_signal }
      if st.last_signal tick.symbol ≠ some signal then
        .ok ({ st1 with
               last_signal := fun x => if x = tick.symbol then some signal
                                       else st.last_signal x }, [signal])
      else
        .ok (st1, [])

/-- `main.run_strategy`, state-passing form: feed the ticks one at a time in
order and return the final strategy state together with the total number of
emitted signals; an exception in any call aborts the run. -/
def run_strategy {σ α : Type} (step : σ → MarketDataPoint → Except String (σ × List α)) :
    σ → List MarketDataPoint → Except String (σ × ℕ)
  | st, [] => .ok (st, 0)
  | st, t :: ts =>
    match step st t with
    | .error e => .error e
    | .ok (st', sigs) =>
      match run_strategy step st' ts with
      | .error e => .error e
      | .ok (stf, n) => .ok (stf, sigs.length + n)

/-- The per-tick trace of a run: the list of signal lists returned by the
successive `generate_signals` calls (same iteration as `run_strategy`,
keeping the outputs instead of summing their lengths). -/
def runTrace {σ α : Type} (step : σ → MarketDataPoint → Except String (σ × List α)) :
    σ → List MarketDataPoint → Except String (σ × List (List α))
  | st, [] => .ok (st, [])
  | st, t :: ts =>
    match step st t with
    | .error e => .error e
    | .ok (st', sigs) =>
      match runTrace step st' ts with
      | .error e => .error e
      | .ok (stf, tr) => .ok (stf, sigs :: tr)

/-- One result row of the benchmarking harness (`profiler.ProfileRow`). -/
structure ProfileRow where
  strategy : String
  n_ticks : ℕ
  seconds : ℚ
  signals : ℕ
  peak_mib : Option ℚ := none
  cprofile_top : Option String := none

/-- `profiler._run_with_timer`: run the runner once and return the elapsed
wall-clock reading (an environment oracle here) and the signal count. -/
def run_with_timer {σ : Type} (runner : σ → List MarketDataPoint → σ × ℕ)
    (strategy : σ) (ticks : List MarketDataPoint) (elapsed : ℚ) : ℚ × ℕ :=
  (elapsed, (runner strategy ticks).2)

/-- `profiler._run_with_cprofile`: run the runner once under the profiler
and return the elapsed reading, the signal count and the hotspot text blob
(the `pstats` output, an environment oracle here). -/
def run_with_cprofile {σ : Type} (runner : σ → List MarketDataPoint → σ × ℕ)
    (strategy : σ) (ticks : List MarketDataPoint) (elapsed : ℚ)
    (top : String) : ℚ × ℕ × String :=
  (elapsed, (runner strategy ticks).2, top)

/-- `profiler._run_with_memory`: when `memory_profiler` is unavailable
(`memAvailable = false`) fall back to the plain timer run and report no
peak; otherwise run once under memory sampling (its return value is
discarded, `retval=False`), take the peak of the sampled series (`None` on
an empty series) and re-run the already-used strategy instance once more to
obtain the signal count. -/
def run_with_memory {σ : Type} (runner : σ → List MarketDataPoint → σ × ℕ)
    (strategy : σ) (ticks : List MarketDataPoint) (elapsed : ℚ)
    (memAvailable : Bool) (memSeries : List ℚ) : ℚ × ℕ × Option ℚ :=
  if memAvailable then
    let sampled := runner strategy ticks
    let peak := memSeries.max?
    let signals := (runner sampled.1 ticks).2
    (elapsed, signals, peak)
  else
    let timed := run_with_timer runner strategy ticks elapsed
    (timed.1, timed.2, none)

/-- `profiler.profile_runtime_memory`: one row per (slice, factory)
combination, slices outermost.  Each trial constructs a fresh instance, runs
it under cProfile (or the plain timer), and, when memory instrumentation is
enabled, constructs a second fresh instance for the memory-sampled run and
copies only the peak reading into the row. -/
def profile_runtime_memory {σ : Type}
    (strategy_factories : List (String × (Unit → σ)))
    (slices : List (ℕ × List MarketDataPoint))
    (runner : σ → List MarketDataPoint → σ × ℕ)
    (do_cprofile do_memory : Bool)
    (elapsedC elapsedT elapsedM : ℚ) (top : String)
    (memAvailable : Bool) (memSeries : List ℚ) : List ProfileRow :=
  slices.flatMap fun ns =>
    strategy_factories.map fun nf =>
      let strat_fresh := nf.2 ()
      let row : ProfileRow :=
        if do_cprofile then
          let r := run_with_cprofile runner strat_fresh ns.2 elapsedC top
          { strategy := nf.1, n_ticks := ns.1, seconds := r.1,
            signals := r.2.1, cprofile_top := some r.2.2 }
        else
          let r := run_with_timer runner strat_fresh ns.2 elapsedT
          { strategy := nf.1, n_ticks := ns.1, seconds := r.1,
            signals := r.2 }
      if do_memory then
        let strat_mem := nf.2 ()
        let r := run_with_memory runner strat_mem ns.2 elapsedM
                   memAvailable memSeries
        { row with peak_mib := r.2.2 }
      else row

/-- A fallible call succeeded (no Python exception was raised). -/
def runOk {α : Type} : Except String α → Prop
  | .ok _ => True
  | .error _ => False

/-- Signal count of a completed run, `none` when the run raised. -/
def emittedCount {σ : Type} : Except String (σ × ℕ) → Option ℕ
  | .ok p => some p.2
  | .error _ => none

/-- Number of ticks of a completed run on which no signal was emitted,
`none` when the run raised. -/
def emptyTickCount {σ α : Type} : Except String (σ × List (List α)) → Option ℕ
  | .ok p => some ((p.2.filter List.isEmpty).length)
  | .error _ => none

/-- Per-tick side classification (BUY/SELL lists, `[]` for no signal) of a
completed trace. -/
def sideTrace {σ : Type} (r : Except String (σ × List (List Signal))) :
    Except String (List (List String)) :=
  r.map fun p => p.2.map fun sigs => sigs.map Signal.side

/-- Construct a windowed strategy and run it, returning only the total
signal count (the composition the harness performs); `none` when
construction or the run raised. -/
def windowedSignalCount (k : ℤ) (ticks : List MarketDataPoint) : Option ℕ :=
  match WindowedMovingAverageStrategy.init k with
  | .error _ => none
  | .ok w =>
    emittedCount (run_strategy WindowedMovingAverageStrategy.generate_signals w ticks)

/-- Construct an optimized strategy and run it, returning only the total
signal count; `none` when construction or the run raised. -/
def optimizedSignalCount (k : ℤ) (ticks : List MarketDataPoint) : Option ℕ :=
  match OptimizedMovingAverageStrategy.init k with
  | .error _ => none
  | .ok o =>
    emittedCount (run_strategy OptimizedMovingAverageStrategy.generate_signals o ticks)

/-- Invariant checked on the outcome of a windowed run: the per-symbol
buffer holds at most `k` prices and the stored running sum is exactly the
sum of the buffer's contents (vacuous when the run raised). -/
def windowInvariantHolds (k : ℤ)
    (r : Except String (WindowedMovingAverageStrategy × ℕ)) (sym : String) :
    Prop :=
  match r with
  | .ok p => ((p.1.buffers sym).length : ℤ) ≤ k ∧
             p.1.running_sum sym = (p.1.buffers sym).sum
  | .error _ => True

/-- The scenario fixture of the spec: prices 10, 20, 15, 30 for symbol
`"X"`. -/
def ticksX : List MarketDataPoint :=
  [⟨1, "X", 10⟩, ⟨2, "X", 20⟩, ⟨3, "X", 15⟩, ⟨4, "X", 30⟩]

/-- A single tick at price 10 (its price equals its own average). -/
def tickOne : MarketDataPoint := ⟨1, "X", 10⟩

/-- The windowed instance `WindowedMovingAverageStrategy(window_size=3)`. -/
def wTest3 : WindowedMovingAverageStrategy :=
  { window_size := 3, buffers := fun _ => [], running_sum := fun _ => 0 }

/-- The windowed instance `WindowedMovingAverageStrategy(window_size=2)`. -/
def wTest2 : WindowedMovingAverageStrategy :=
  { window_size := 2, buffers := fun _ => [], running_sum := fun _ => 0 }

/-- The signal list the naive variant emits for a tick given the computed
average (abbreviation used to state step characterizations). -/
def naiveTickSignals (t : MarketDataPoint) (avg : ℚ) : List Signal :=
  if avg < t.price then
    [⟨t.timestamp, t.symbol, "BUY", t.price, [("average", avg)]⟩]
  else if t.price < avg then
    [⟨t.timestamp, t.symbol, "SELL", t.price, [("average", avg)]⟩]
  else []

/-- The signal list the windowed variant emits for a tick given the computed
average and the configured window size. -/
def windowedTickSignals (t : MarketDataPoint) (avg : ℚ) (k : ℤ) : List Signal :=
  if avg < t.price then
    [⟨t.timestamp, t.symbol, "BUY", t.price, [("average", avg), ("window", (k : ℚ))]⟩]
  else if t.price < avg then
    [⟨t.timestamp, t.symbol, "SELL", t.price, [("average", avg), ("window", (k : ℚ))]⟩]
  else []

/-! ### Step characterizations and invariant lemmas -/

/-- A successful windowed construction forces a positive window size and
yields the empty-state instance. -/
theorem windowed_init_char {k : ℤ} {w : WindowedMovingAverageStrategy}
    (hw : WindowedMovingAverageStrategy.init k = .ok w) :
    1 ≤ k ∧ w = { window_size := k, buffers := fun _ => [],
                  running_sum := fun _ => 0 } := by
  unfold WindowedMovingAverageStrategy.init at hw
  split at hw
  · exact absurd hw (by simp)
  · next h =>
    cases hw
    exact ⟨by omega, rfl⟩

/-- The naive step never raises: it appends the price and emits according to
the recomputed full-history average. -/
theorem naive_step_char (st : NaiveMovingAverageStrategy) (t : MarketDataPoint) :
    st.generate_signals t =
      .ok (⟨fun s => if s = t.symbol then st.price_history t.symbol ++ [t.price]
                     else st.price_history s⟩,
           naiveTickSignals t
             ((st.price_history t.symbol ++ [t.price]).sum
               / (((st.price_history t.symbol ++ [t.price]).length : ℕ) : ℚ))) := by
  unfold NaiveMovingAverageStrategy.generate_signals naiveTickSignals
  simp
  split_ifs <;> rfl

/-- Windowed step, warm-up case: when the buffer does not overflow the
window, the price is appended, the running sum increased, and the emission
follows the average over the grown buffer. -/
theorem windowed_step_noevict (st : WindowedMovingAverageStrategy)
    (t : MarketDataPoint)
    (h : ¬ (((st.buffers t.symbol).length + 1 : ℤ) > st.window_size)) :
    st.generate_signals t =
      .ok ({ window_size := st.window_size,
             buffers := fun s => if s = t.symbol
                                 then st.buffers t.symbol ++ [t.price]
                                 else st.buffers s,
             running_sum := fun s => if s = t.symbol
                                     then st.running_sum t.symbol + t.price
                                     else st.running_sum s },
           windowedTickSignals t
             ((st.running_sum t.symbol + t.price)
               / (((st.buffers t.symbol ++ [t.price]).length : ℕ) : ℚ))
             st.window_size) := by
  unfold WindowedMovingAverageStrategy.generate_signals windowedTickSignals
  simp only [List.length_append, List.length_cons, List.length_nil]
  rw [if_neg (by push_cast; omega)]
  simp
  split_ifs <;> rfl

/-- Windowed step, eviction case: when the grown buffer exceeds the window,
the oldest price `hd` is popped and subtracted before the average is taken
over the remaining buffer. -/
theorem windowed_step_evict (st : WindowedMovingAverageStrategy)
    (t : MarketDataPoint) (hd : ℚ) (tl : List ℚ)
    (hb : st.buffers t.symbol = hd :: tl)
    (h : ((st.buffers t.symbol).length + 1 : ℤ) > st.window_size) :
    st.generate_signals t =
      .ok ({ window_size := st.window_size,
             buffers := fun s => if s = t.symbol then tl ++ [t.price]
                                 else st.buffers s,
             running_sum := fun s => if s = t.symbol
                                     then st.running_sum t.symbol + t.price - hd
                                     else st.running_sum s },
           windowedTickSignals t
             ((st.running_sum t.symbol + t.price - hd)
               / (((tl ++ [t.price]).length : ℕ) : ℚ))
             st.window_size) := by
  rw [hb] at h
  unfold WindowedMovingAverageStrategy.generate_signals windowedTickSignals
  rw [hb]
  simp only [List.cons_append, List.length_append, List.length_cons,
    List.length_nil]
  rw [if_pos (by simp only [List.length_cons] at h; push_cast at h ⊢; omega)]
  simp
  split_ifs <;> rfl

/-- With a positive window size the optimized step never raises, preserves
the window size, and emits at most one side string. -/
theorem optimized_step_ok (st : OptimizedMovingAverageStrategy)
    (t : MarketDataPoint) (h1 : 1 ≤ st.window_size) :
    ∃ st' sigs, st.generate_signals t = .ok (st', sigs) ∧
      st'.window_size = st.window_size ∧ sigs.length ≤ 1 := by
  unfold OptimizedMovingAverageStrategy.generate_signals
  rcases hb : st.buffers t.symbol with _ | ⟨hd, tl⟩
  · simp only [hb, List.nil_append, List.length_cons, List.length_nil]
    rw [if_neg (by push_cast; omega)]
    simp
    split_ifs <;> exact ⟨_, _, rfl, rfl, by simp⟩
  · simp only [hb, List.cons_append, List.length_cons, List.length_append,
      List.length_nil]
    by_cases hpop : ((tl.length + 1 + 1 : ℕ) : ℤ) > st.window_size
    · rw [if_pos hpop]
      simp
      split_ifs <;> exact ⟨_, _, rfl, rfl, by simp⟩
    · rw [if_neg hpop]
      simp
      split_ifs <;> exact ⟨_, _, rfl, rfl, by simp⟩

/-- The windowed variant emits at most one signal per tick. -/
theorem windowedTickSignals_length (t : MarketDataPoint) (avg : ℚ) (k : ℤ) :
    (windowedTickSignals t avg k).length ≤ 1 := by
  unfold windowedTickSignals
  split_ifs <;> simp

/-- With a positive window size, a windowed step starting from a state whose
buffers respect the bound and whose running sums match the buffer contents
succeeds and re-establishes both properties. -/
theorem windowed_step_inv (k : ℤ) (st : WindowedMovingAverageStrategy)
    (t : MarketDataPoint) (hws : st.window_size = k) (h1 : 1 ≤ k)
    (hinv : ∀ sym, ((st.buffers sym).length : ℤ) ≤ k ∧
                   st.running_sum sym = (st.buffers sym).sum) :
    ∃ st' sigs, st.generate_signals t = .ok (st', sigs) ∧
      st'.window_size = k ∧ sigs.length ≤ 1 ∧
      ∀ sym, ((st'.buffers sym).length : ℤ) ≤ k ∧
             st'.running_sum sym = (st'.buffers sym).sum := by
  by_cases hpop : ((st.buffers t.symbol).length + 1 : ℤ) > st.window_size
  · rcases hbe : st.buffers t.symbol with _ | ⟨hd, tl⟩
    · rw [hbe] at hpop
      simp only [List.length_nil, Nat.cast_zero] at hpop
      omega
    · refine ⟨_, _, windowed_step_evict st t hd tl hbe hpop, hws,
        windowedTickSignals_length _ _ _, ?_⟩
      intro sym
      obtain ⟨hlen, hsum⟩ := hinv sym
      by_cases hsym : sym = t.symbol
      · subst hsym
        rw [hbe] at hlen hsum
        simp only [List.length_cons] at hlen
        constructor
        · simp [List.length_append]
          push_cast at hlen ⊢
          omega
        · simp [hsum, List.sum_append]
          ring
      · simp only [if_neg hsym]
        exact ⟨hlen, hsum⟩
  · refine ⟨_, _, windowed_step_noevict st t hpop, hws,
      windowedTickSignals_length _ _ _, ?_⟩
    intro sym
    obtain ⟨hlen, hsum⟩ := hinv sym
    by_cases hsym : sym = t.symbol
    · subst hsym
      rw [hws] at hpop
      constructor
      · simp [List.length_append]
        omega
      · simp [hsum, List.sum_append]
    · simp only [if_neg hsym]
      exact ⟨hlen, hsum⟩

/-- Running a strategy preserves any per-step invariant that guarantees each
step succeeds; in particular the whole run succeeds. -/
theorem run_strategy_ok_of {σ α : Type}
    (step : σ → MarketDataPoint → Except String (σ × List α))
    (P : σ → Prop)
    (hstep : ∀ st t, P st → ∃ st' sigs, step st t = .ok (st', sigs) ∧ P st')
    (ticks : List MarketDataPoint) :
    ∀ st, P st → ∃ p, run_strategy step st ticks = .ok p ∧ P p.1 := by
  induction ticks with
  | nil => exact fun st h => ⟨(st, 0), rfl, h⟩
  | cons t ts ih =>
    intro st h
    obtain ⟨st', sigs, hs, hP⟩ := hstep st t h
    obtain ⟨p, hp, hPp⟩ := ih st' hP
    refine ⟨(p.1, sigs.length + p.2), ?_, hPp⟩
    simp [run_strategy, hs, hp]

/-- The runner's total count is the sum of the per-tick trace lengths. -/
theorem run_strategy_eq_runTrace {σ α : Type}
    (step : σ → MarketDataPoint → Except String (σ × List α))
    (ticks : List MarketDataPoint) :
    ∀ st, run_strategy step st ticks =
      (runTrace step st ticks).map fun p => (p.1, (p.2.map List.length).sum) := by
  induction ticks with
  | nil => intro st; rfl
  | cons t ts ih =>
    intro st
    simp only [run_strategy, runTrace]
    cases step st t with
    | error e => rfl
    | ok q =>
      obtain ⟨st', sigs⟩ := q
      simp only [ih st']
      cases runTrace step st' ts with
      | error e => rfl
      | ok r => simp [Except.map]

/-! ### Claim theorems -/

/-- C2 (amended): for every integer `k ≤ 0`, constructing a
`WindowedMovingAverageStrategy` with `window_size = k` fails immediately
with the invalid-argument error `window_size must be positive` and no
instance is produced; the `OptimizedMovingAverageStrategy` constructor
performs no validation, so for the same `k` construction succeeds and an
instance is produced. -/
theorem window_size_validation (k : ℤ) (hk : k ≤ 0) :
    WindowedMovingAverageStrategy.init k = .error "window_size must be positive" ∧
    OptimizedMovingAverageStrategy.init k =
      .ok (OptimizedMovingAverageStrategy.mkState k) := by
  constructor
  · unfold WindowedMovingAverageStrategy.init
    rw [if_pos hk]
  · rfl

/-- Witness for `window_size_validation` at `k = 0`. -/
theorem window_size_validation_witness :
    WindowedMovingAverageStrategy.init 0 = .error "window_size must be positive" ∧
    OptimizedMovingAverageStrategy.init 0 =
      .ok (OptimizedMovingAverageStrategy.mkState 0) :=
  window_size_validation 0 (by decide)

/-- C2 counterexample: at `window_size = 0` (an integer `≤ 0`) the optimized
variant's construction does not fail — it produces an instance, refuting the
claim that both variants reject `k ≤ 0` at construction. -/
theorem optimized_construction_unvalidated :
    OptimizedMovingAverageStrategy.init 0 =
      .ok (OptimizedMovingAverageStrategy.mkState 0) := rfl

/-- C4: for every windowed strategy constructed with `window_size = k`
(necessarily `k ≥ 1`), after any tick sequence the per-symbol queue length
is at most `k` and the per-symbol running sum equals the sum of the queue's
current contents, for every symbol. -/
theorem windowed_queue_sum_invariant (k : ℤ) (w : WindowedMovingAverageStrategy)
    (hw : WindowedMovingAverageStrategy.init k = .ok w)
    (ticks : List MarketDataPoint) (sym : String) :
    windowInvariantHolds k
      (run_strategy WindowedMovingAverageStrategy.generate_signals w ticks)
      sym := by
  obtain ⟨h1, hwE⟩ := windowed_init_char hw
  subst hwE
  have hrun := run_strategy_ok_of WindowedMovingAverageStrategy.generate_signals
    (fun st => st.window_size = k ∧ ∀ s, ((st.buffers s).length : ℤ) ≤ k ∧
               st.running_sum s = (st.buffers s).sum)
    (fun st t hP => by
      obtain ⟨hws, hinv⟩ := hP
      obtain ⟨st', sigs, hs, hws', hsl, hinv'⟩ := windowed_step_inv k st t hws h1 hinv
      exact ⟨st', sigs, hs, hws', hinv'⟩)
    ticks { window_size := k, buffers := fun _ => [], running_sum := fun _ => 0 }
    ⟨rfl, fun s => ⟨by simp; omega, by simp⟩⟩
  obtain ⟨p, hp, hws, hinv⟩ := hrun
  unfold windowInvariantHolds
  rw [hp]
  exact hinv sym

/-- Witness for `windowed_queue_sum_invariant`: window size 2 over the
four-tick scenario sequence. -/
theorem windowed_queue_sum_invariant_witness :
    windowInvariantHolds 2
      (run_strategy WindowedMovingAverageStrategy.generate_signals wTest2 ticksX)
      "X" :=
  windowed_queue_sum_invariant 2 wTest2 rfl ticksX "X"

/-- C6 (amended): for every successfully constructed windowed instance and
the naive instance, and for every optimized instance whose window size is
positive (its constructor does not validate), `generate_signals` never
raises on any tick sequence: the tick is pushed before the average is
computed, so the denominator is nonzero. -/
theorem per_tick_processing_total (k : ℤ) (w : WindowedMovingAverageStrategy)
    (hw : WindowedMovingAverageStrategy.init k = .ok w)
    (ticks : List MarketDataPoint) :
    runOk (run_strategy NaiveMovingAverageStrategy.generate_signals
            NaiveMovingAverageStrategy.init ticks) ∧
    runOk (run_strategy WindowedMovingAverageStrategy.generate_signals w ticks) ∧
    runOk (run_strategy OptimizedMovingAverageStrategy.generate_signals
            (OptimizedMovingAverageStrategy.mkState k) ticks) := by
  obtain ⟨h1, hwE⟩ := windowed_init_char hw
  refine ⟨?_, ?_, ?_⟩
  · obtain ⟨p, hp, -⟩ := run_strategy_ok_of _ (fun _ => True)
      (fun st t _ => ⟨_, _, naive_step_char st t, trivial⟩) ticks
      NaiveMovingAverageStrategy.init trivial
    simp [runOk, hp]
  · subst hwE
    obtain ⟨p, hp, -⟩ := run_strategy_ok_of
      WindowedMovingAverageStrategy.generate_signals
      (fun st => st.window_size = k ∧ ∀ s, ((st.buffers s).length : ℤ) ≤ k ∧
                 st.running_sum s = (st.buffers s).sum)
      (fun st t hP => by
        obtain ⟨hws, hinv⟩ := hP
        obtain ⟨st', sigs, hs, hws', hsl, hinv'⟩ := windowed_step_inv k st t hws h1 hinv
        exact ⟨st', sigs, hs, hws', hinv'⟩)
      ticks { window_size := k, buffers := fun _ => [], running_sum := fun _ => 0 }
      ⟨rfl, fun s => ⟨by simp; omega, by simp⟩⟩
    simp [runOk, hp]
  · obtain ⟨p, hp, -⟩ := run_strategy_ok_of
      OptimizedMovingAverageStrategy.generate_signals
      (fun st => 1 ≤ st.window_size)
      (fun st t hP => by
        obtain ⟨st', sigs, hs, hws', hsl⟩ := optimized_step_ok st t hP
        exact ⟨st', sigs, hs, by omega⟩)
      ticks (OptimizedMovingAverageStrategy.mkState k) h1
    simp [runOk, hp]

/-- Witness for `per_tick_processing_total` with window size 3 on the
scenario sequence. -/
theorem per_tick_processing_total_witness :
    runOk (run_strategy NaiveMovingAverageStrategy.generate_signals
            NaiveMovingAverageStrategy.init ticksX) ∧
    runOk (run_strategy WindowedMovingAverageStrategy.generate_signals wTest3 ticksX) ∧
    runOk (run_strategy OptimizedMovingAverageStrategy.generate_signals
            (OptimizedMovingAverageStrategy.mkState 3) ticksX) :=
  per_tick_processing_total 3 wTest3 rfl ticksX

/-- C6 counterexample: `OptimizedMovingAverageStrategy(window_size=0)` is
successfully constructed, yet its very first `generate_signals` call raises
a division-by-zero error (the freshly pushed price is immediately popped,
leaving an empty buffer as denominator). -/
theorem optimized_zero_window_divzero :
    OptimizedMovingAverageStrategy.init 0 =
      .ok (OptimizedMovingAverageStrategy.mkState 0) ∧
    run_strategy OptimizedMovingAverageStrategy.generate_signals
      (OptimizedMovingAverageStrategy.mkState 0) [tickOne] =
      .error "division by zero" :=
  ⟨rfl, rfl⟩

/-- C10 (amended): for every optimized instance with positive window size
and every symbol not yet emitted on (its buffer empty and no last-side
entry), the first tick for that symbol emits exactly one signal, whose side
is BUY or SELL. -/
theorem optimized_first_tick_emits (st : OptimizedMovingAverageStrategy)
    (t : MarketDataPoint) (h1 : 1 ≤ st.window_size)
    (hbuf : st.buffers t.symbol = [])
    (hlast : st.last_signal t.symbol = none) :
    ∃ st' s, st.generate_signals t = .ok (st', [s]) ∧
      (s = "BUY" ∨ s = "SELL") := by
  unfold OptimizedMovingAverageStrategy.generate_signals
  simp only [hbuf, List.nil_append, List.length_cons, List.length_nil]
  rw [if_neg (by push_cast; omega)]
  simp [hlast]
  split_ifs <;> first
    | exact ⟨_, _, ⟨rfl, rfl⟩, Or.inl rfl⟩
    | exact ⟨_, _, ⟨rfl, rfl⟩, Or.inr rfl⟩

/-- Witness for `optimized_first_tick_emits` at window size 2 on a fresh
instance and the single scenario tick. -/
theorem optimized_first_tick_emits_witness :
    ∃ st' s, (OptimizedMovingAverageStrategy.mkState 2).generate_signals tickOne =
      .ok (st', [s]) ∧ (s = "BUY" ∨ s = "SELL") :=
  optimized_first_tick_emits (OptimizedMovingAverageStrategy.mkState 2) tickOne
    (by decide) rfl rfl

/-- C10 counterexample: with window size 0 the first tick for a fresh symbol
raises instead of emitting a signal, so the claim's `any window size` is too
strong. -/
theorem optimized_first_tick_zero_window :
    (OptimizedMovingAverageStrategy.mkState 0).generate_signals tickOne =
      .error "division by zero" := rfl

/-- C3: on prices 10, 20, 15, 30 for symbol X with window size 3, the
windowed variant emits nothing on tick 1 (price equals average 10), BUY on
tick 2 (20 > 15), nothing on tick 3 (15 equals 15) and BUY on tick 4 (queue
[20, 15, 30], 30 > 65/3); the optimized variant emits SELL on tick 3 (tie
resolves to SELL, differing from the prior emitted side BUY), its full
emission sequence being SELL, BUY, SELL, BUY. -/
theorem scenario_window3_trace :
    WindowedMovingAverageStrategy.init 3 = .ok wTest3 ∧
    (runTrace WindowedMovingAverageStrategy.generate_signals wTest3 ticksX).map
        (fun p => p.2) =
      .ok [[],
           [⟨2, "X", "BUY", 20, [("average", 15), ("window", 3)]⟩],
           [],
           [⟨4, "X", "BUY", 30, [("average", 65/3), ("window", 3)]⟩]] ∧
    (runTrace OptimizedMovingAverageStrategy.generate_signals
        (OptimizedMovingAverageStrategy.mkState 3) ticksX).map (fun p => p.2) =
      .ok [["SELL"], ["BUY"], ["SELL"], ["BUY"]] :=
  ⟨rfl, by with_unfolding_all rfl, by with_unfolding_all rfl⟩

/-- C9: two freshly constructed instances of the same variant with the same
parameters, fed the identical tick sequence, produce identical per-tick
traces, and hence the runner returns equal total signal counts, for all
three variants. -/
theorem construction_determinism (k : ℤ) (ticks : List MarketDataPoint)
    (n1 n2 : NaiveMovingAverageStrategy)
    (w1 w2 : WindowedMovingAverageStrategy)
    (o1 o2 : OptimizedMovingAverageStrategy)
    (hn1 : n1 = NaiveMovingAverageStrategy.init)
    (hn2 : n2 = NaiveMovingAverageStrategy.init)
    (hw1 : WindowedMovingAverageStrategy.init k = .ok w1)
    (hw2 : WindowedMovingAverageStrategy.init k = .ok w2)
    (ho1 : OptimizedMovingAverageStrategy.init k = .ok o1)
    (ho2 : OptimizedMovingAverageStrategy.init k = .ok o2) :
    (runTrace NaiveMovingAverageStrategy.generate_signals n1 ticks =
       runTrace NaiveMovingAverageStrategy.generate_signals n2 ticks ∧
     run_strategy NaiveMovingAverageStrategy.generate_signals n1 ticks =
       run_strategy NaiveMovingAverageStrategy.generate_signals n2 ticks) ∧
    (runTrace WindowedMovingAverageStrategy.generate_signals w1 ticks =
       runTrace WindowedMovingAverageStrategy.generate_signals w2 ticks ∧
     run_strategy WindowedMovingAverageStrategy.generate_signals w1 ticks =
       run_strategy WindowedMovingAverageStrategy.generate_signals w2 ticks) ∧
    (runTrace OptimizedMovingAverageStrategy.generate_signals o1 ticks =
       runTrace OptimizedMovingAverageStrategy.generate_signals o2 ticks ∧
     run_strategy OptimizedMovingAverageStrategy.generate_signals o1 ticks =
       run_strategy OptimizedMovingAverageStrategy.generate_signals o2 ticks) := by
  subst hn1
  subst hn2
  rw [hw1] at hw2
  injection hw2 with hw
  subst hw
  rw [ho1] at ho2
  injection ho2 with ho
  subst ho
  exact ⟨⟨rfl, rfl⟩, ⟨rfl, rfl⟩, ⟨rfl, rfl⟩⟩

/-- Witness for `construction_determinism`: window size 3 on the scenario
ticks, all constructions discharged by computation. -/
theorem construction_determinism_witness :
    (runTrace NaiveMovingAverageStrategy.generate_signals
        NaiveMovingAverageStrategy.init ticksX =
       runTrace NaiveMovingAverageStrategy.generate_signals
        NaiveMovingAverageStrategy.init ticksX ∧
     run_strategy NaiveMovingAverageStrategy.generate_signals
        NaiveMovingAverageStrategy.init ticksX =
       run_strategy NaiveMovingAverageStrategy.generate_signals
        NaiveMovingAverageStrategy.init ticksX) ∧
    (runTrace WindowedMovingAverageStrategy.generate_signals wTest3 ticksX =
       runTrace WindowedMovingAverageStrategy.generate_signals wTest3 ticksX ∧
     run_strategy WindowedMovingAverageStrategy.generate_signals wTest3 ticksX =
       run_strategy WindowedMovingAverageStrategy.generate_signals wTest3 ticksX) ∧
    (runTrace OptimizedMovingAverageStrategy.generate_signals
        (OptimizedMovingAverageStrategy.mkState 3) ticksX =
       runTrace OptimizedMovingAverageStrategy.generate_signals
        (OptimizedMovingAverageStrategy.mkState 3) ticksX ∧
     run_strategy OptimizedMovingAverageStrategy.generate_signals
        (OptimizedMovingAverageStrategy.mkState 3) ticksX =
       run_strategy OptimizedMovingAverageStrategy.generate_signals
        (OptimizedMovingAverageStrategy.mkState 3) ticksX) :=
  construction_determinism 3 ticksX _ _ wTest3 wTest3 _ _ rfl rfl rfl rfl rfl rfl

/-- C7: every result row's `signals` value (together with its strategy name
and size) is exactly the runner's count over a fresh instance on that slice,
the count produced by the cProfile or timer run — independently of the
memory-instrumentation parameters, so never the count observed during the
memory-sampled call. -/
theorem row_signals_from_timed_run {σ : Type}
    (strategy_factories : List (String × (Unit → σ)))
    (slices : List (ℕ × List MarketDataPoint))
    (runner : σ → List MarketDataPoint → σ × ℕ)
    (do_cprofile do_memory : Bool) (elapsedC elapsedT elapsedM : ℚ)
    (top : String) (memAvailable : Bool) (memSeries : List ℚ) :
    (profile_runtime_memory strategy_factories slices runner do_cprofile
        do_memory elapsedC elapsedT elapsedM top memAvailable memSeries).map
      (fun r => (r.strategy, r.n_ticks, r.signals)) =
    slices.flatMap (fun ns => strategy_factories.map
      (fun nf => (nf.1, ns.1, (runner (nf.2 ()) ns.2).2))) := by
  unfold profile_runtime_memory
  rw [List.map_flatMap]
  congr 1
  funext ns
  rw [List.map_map]
  congr 1
  funext nf
  cases do_cprofile <;> cases do_memory <;>
    simp [run_with_cprofile, run_with_timer, Function.comp]

/-- Sum of a constant-valued map is the length times the constant. -/
theorem list_sum_const {α : Type} (l : List α) (c : ℕ) :
    (l.map fun _ => c).sum = l.length * c := by
  induction l with
  | nil => simp
  | cons a tl ih => simp [ih, Nat.succ_mul]; ring

/-- C8: when the memory-sampling facility is unavailable the harness still
emits exactly one row per (slice, constructor) combination, each with the
peak-memory field absent, instead of failing the run. -/
theorem memory_unavailable_graceful {σ : Type}
    (strategy_factories : List (String × (Unit → σ)))
    (slices : List (ℕ × List MarketDataPoint))
    (runner : σ → List MarketDataPoint → σ × ℕ)
    (do_cprofile do_memory : Bool) (elapsedC elapsedT elapsedM : ℚ)
    (top : String) (memAvailable : Bool) (memSeries : List ℚ)
    (hmem : memAvailable = false) :
    (profile_runtime_memory strategy_factories slices runner do_cprofile
        do_memory elapsedC elapsedT elapsedM top memAvailable memSeries).length
      = slices.length * strategy_factories.length ∧
    ∀ r ∈ profile_runtime_memory strategy_factories slices runner do_cprofile
        do_memory elapsedC elapsedT elapsedM top memAvailable memSeries,
      r.peak_mib = none := by
  subst hmem
  constructor
  · unfold profile_runtime_memory
    rw [List.length_flatMap]
    rw [show (List.map _ slices) =
        (slices.map fun _ => strategy_factories.length) from
      List.map_congr_left fun ns _ => by simp]
    exact list_sum_const slices strategy_factories.length
  · intro r hr
    unfold profile_runtime_memory at hr
    rw [List.mem_flatMap] at hr
    obtain ⟨ns, hns, hr⟩ := hr
    rw [List.mem_map] at hr
    obtain ⟨nf, hnf, hr⟩ := hr
    subst hr
    cases do_cprofile <;> cases do_memory <;>
      simp [run_with_memory, run_with_timer, run_with_cprofile]

/-- Witness for `memory_unavailable_graceful`: one factory (the naive
strategy), one one-tick slice, a state-passing runner, sampler unavailable. -/
theorem memory_unavailable_graceful_witness :
    (profile_runtime_memory
        [("naive", fun (_ : Unit) => NaiveMovingAverageStrategy.init)]
        [(1, [tickOne])] (fun st _ => (st, 0)) true true 0 0 0 "" false []).length
      = [(1, [tickOne])].length *
        [("naive", fun (_ : Unit) => NaiveMovingAverageStrategy.init)].length ∧
    ∀ r ∈ profile_runtime_memory
        [("naive", fun (_ : Unit) => NaiveMovingAverageStrategy.init)]
        [(1, [tickOne])] (fun st _ => (st, 0)) true true 0 0 0 "" false [],
      r.peak_mib = none :=
  memory_unavailable_graceful
    [("naive", fun (_ : Unit) => NaiveMovingAverageStrategy.init)]
    [(1, [tickOne])] (fun st _ => (st, 0)) true true 0 0 0 "" false [] rfl

/-- The naive and windowed emissions for one tick agree on sides whenever
they are computed from the same average. -/
theorem tick_signals_sides (t : MarketDataPoint) (avg : ℚ) (k : ℤ) :
    (naiveTickSignals t avg).map Signal.side =
    (windowedTickSignals t avg k).map Signal.side := by
  unfold naiveTickSignals windowedTickSignals
  split_ifs <;> rfl

/-- While at most `window_size` ticks have been seen for the symbol, the
naive history and the windowed buffer coincide, so both variants compute the
same average and the same side classification on every tick. -/
theorem naive_windowed_agree_aux (sym : String) (ticks : List MarketDataPoint) :
    ∀ (sn : NaiveMovingAverageStrategy) (sw : WindowedMovingAverageStrategy),
      (∀ t ∈ ticks, t.symbol = sym) →
      sw.buffers sym = sn.price_history sym →
      sw.running_sum sym = (sw.buffers sym).sum →
      ((sn.price_history sym).length + ticks.length : ℤ) ≤ sw.window_size →
      ∃ pn pw,
        runTrace NaiveMovingAverageStrategy.generate_signals sn ticks = .ok pn ∧
        runTrace WindowedMovingAverageStrategy.generate_signals sw ticks = .ok pw ∧
        pn.2.map (List.map Signal.side) = pw.2.map (List.map Signal.side) := by
  induction ticks with
  | nil =>
    intro sn sw _ _ _ _
    exact ⟨(sn, []), (sw, []), rfl, rfl, rfl⟩
  | cons t ts ih =>
    intro sn sw hsym hbuf hsum hlen
    have htsym : t.symbol = sym := hsym t (List.mem_cons_self t ts)
    simp only [List.length_cons] at hlen
    have hn := naive_step_char sn t
    have hnoev : ¬ (((sw.buffers t.symbol).length + 1 : ℤ) > sw.window_size) := by
      rw [htsym, hbuf]
      push_cast at hlen ⊢
      omega
    have hw := windowed_step_noevict sw t hnoev
    have havg : (sw.running_sum t.symbol + t.price)
          / (((sw.buffers t.symbol ++ [t.price]).length : ℕ) : ℚ)
        = (sn.price_history t.symbol ++ [t.price]).sum
          / (((sn.price_history t.symbol ++ [t.price]).length : ℕ) : ℚ) := by
      rw [htsym, hsum, hbuf]
      simp [List.sum_append]
    obtain ⟨pn, pw, hpn, hpw, heq⟩ := ih
      ⟨fun s => if s = t.symbol then sn.price_history t.symbol ++ [t.price]
                else sn.price_history s⟩
      { window_size := sw.window_size,
        buffers := fun s => if s = t.symbol then sw.buffers t.symbol ++ [t.price]
                            else sw.buffers s,
        running_sum := fun s => if s = t.symbol then sw.running_sum t.symbol + t.price
                                else sw.running_sum s }
      (fun t' ht' => hsym t' (List.mem_cons_of_mem t ht'))
      (by simp [htsym, hbuf])
      (by simp [htsym, hbuf, hsum, List.sum_append])
      (by
        simp [htsym, List.length_append]
        push_cast at hlen ⊢
        omega)
    refine ⟨(pn.1, naiveTickSignals t
        ((sn.price_history t.symbol ++ [t.price]).sum
          / (((sn.price_history t.symbol ++ [t.price]).length : ℕ) : ℚ)) :: pn.2),
      (pw.1, windowedTickSignals t
        ((sw.running_sum t.symbol + t.price)
          / (((sw.buffers t.symbol ++ [t.price]).length : ℕ) : ℚ))
        sw.window_size :: pw.2), ?_, ?_, ?_⟩
    · simp [runTrace, hn, hpn]
    · simp [runTrace, hw, hpw]
    · simp only [List.map_cons]
      rw [havg, tick_signals_sides t _ sw.window_size, heq]

/-- A fresh naive and a fresh windowed strategy agree on the per-tick side
classification over any single-symbol sequence of at most `window_size`
ticks. -/
theorem naive_windowed_agree_len (k : ℤ) (w : WindowedMovingAverageStrategy)
    (hw : WindowedMovingAverageStrategy.init k = .ok w)
    (sym : String) (ticks : List MarketDataPoint)
    (hsym : ∀ t ∈ ticks, t.symbol = sym)
    (hlen : (ticks.length : ℤ) ≤ k) :
    sideTrace (runTrace NaiveMovingAverageStrategy.generate_signals
      NaiveMovingAverageStrategy.init ticks) =
    sideTrace (runTrace WindowedMovingAverageStrategy.generate_signals w ticks) := by
  obtain ⟨h1, hwE⟩ := windowed_init_char hw
  subst hwE
  obtain ⟨pn, pw, hpn, hpw, heq⟩ := naive_windowed_agree_aux sym ticks
    NaiveMovingAverageStrategy.init
    { window_size := k, buffers := fun _ => [], running_sum := fun _ => 0 }
    hsym rfl rfl (by simpa [NaiveMovingAverageStrategy.init] using hlen)
  simp [sideTrace, hpn, hpw, Except.map, heq]

/-- C5: for every window size `k ≥ 1` and every single-symbol tick sequence,
a fresh naive and a fresh windowed strategy emit the same side
classification (BUY, SELL, or no signal) on each of the first `k` ticks —
exactly the ticks during which the naive history length is at most `k`. -/
theorem naive_windowed_agree_warmup (k : ℤ) (w : WindowedMovingAverageStrategy)
    (hw : WindowedMovingAverageStrategy.init k = .ok w)
    (sym : String) (ticks : List MarketDataPoint)
    (hsym : ∀ t ∈ ticks, t.symbol = sym) :
    sideTrace (runTrace NaiveMovingAverageStrategy.generate_signals
      NaiveMovingAverageStrategy.init (ticks.take k.toNat)) =
    sideTrace (runTrace WindowedMovingAverageStrategy.generate_signals w
      (ticks.take k.toNat)) := by
  obtain ⟨h1, -⟩ := windowed_init_char hw
  refine naive_windowed_agree_len k w hw sym (ticks.take k.toNat)
    (fun t ht => hsym t (List.mem_of_mem_take ht)) ?_
  have hle : (ticks.take k.toNat).length ≤ k.toNat := by
    rw [List.length_take]
    exact Nat.min_le_left _ _
  calc ((ticks.take k.toNat).length : ℤ) ≤ (k.toNat : ℤ) := by exact_mod_cast hle
    _ = k := Int.toNat_of_nonneg (by omega)

/-- Witness for `naive_windowed_agree_warmup`: window size 3 on the
four-tick scenario sequence for symbol X (first three ticks compared). -/
theorem naive_windowed_agree_warmup_witness :
    sideTrace (runTrace NaiveMovingAverageStrategy.generate_signals
      NaiveMovingAverageStrategy.init (ticksX.take (Int.toNat 3))) =
    sideTrace (runTrace WindowedMovingAverageStrategy.generate_signals wTest3
      (ticksX.take (Int.toNat 3))) :=
  naive_windowed_agree_warmup 3 wTest3 rfl "X" ticksX (by decide)

/-- With a positive window size the windowed step never raises, preserves
the window size, and emits at most one signal. -/
theorem windowed_step_ok (st : WindowedMovingAverageStrategy)
    (t : MarketDataPoint) (h1 : 1 ≤ st.window_size) :
    ∃ st' sigs, st.generate_signals t = .ok (st', sigs) ∧
      st'.window_size = st.window_size ∧ sigs.length ≤ 1 := by
  by_cases hpop : ((st.buffers t.symbol).length + 1 : ℤ) > st.window_size
  · rcases hbe : st.buffers t.symbol with _ | ⟨hd, tl⟩
    · rw [hbe] at hpop
      simp only [List.length_nil, Nat.cast_zero] at hpop
      omega
    · exact ⟨_, _, windowed_step_evict st t hd tl hbe hpop, rfl,
        windowedTickSignals_length _ _ _⟩
  · exact ⟨_, _, windowed_step_noevict st t hpop, rfl,
      windowedTickSignals_length _ _ _⟩

/-- Per tick the optimized variant emits at most one signal while the
windowed variant emits one signal exactly when the price differs from its
window average; summing over a run bounds the optimized count by the
windowed count plus the number of windowed-silent (tie) ticks. -/
theorem opt_le_win_ties_aux (ticks : List MarketDataPoint) :
    ∀ (sw : WindowedMovingAverageStrategy)
      (so : OptimizedMovingAverageStrategy),
      1 ≤ sw.window_size → 1 ≤ so.window_size →
      ∃ pw po,
        runTrace WindowedMovingAverageStrategy.generate_signals sw ticks = .ok pw ∧
        runTrace OptimizedMovingAverageStrategy.generate_signals so ticks = .ok po ∧
        (po.2.map List.length).sum ≤
          (pw.2.map List.length).sum + (pw.2.filter List.isEmpty).length := by
  induction ticks with
  | nil =>
    intro sw so _ _
    exact ⟨(sw, []), (so, []), rfl, rfl, Nat.le_refl 0⟩
  | cons t ts ih =>
    intro sw so h1w h1o
    obtain ⟨sw', sigsW, hsW, hwsW, hlW⟩ := windowed_step_ok sw t h1w
    obtain ⟨so', sigsO, hsO, hwsO, hlO⟩ := optimized_step_ok so t h1o
    obtain ⟨pw, po, hpw, hpo, hle⟩ := ih sw' so' (by omega) (by omega)
    refine ⟨(pw.1, sigsW :: pw.2), (po.1, sigsO :: po.2), ?_, ?_, ?_⟩
    · simp [runTrace, hsW, hpw]
    · simp [runTrace, hsO, hpo]
    · simp only [List.map_cons, List.sum_cons, List.filter_cons]
      rcases sigsW with _ | ⟨s, rest⟩
      · simp only [List.isEmpty_nil, if_true, List.length_cons, List.length_nil,
          List.sum_nil, List.map_nil]
        simp
        omega
      · simp [List.isEmpty_cons]
        omega

/-- C1 (amended): for every window size `k ≥ 1` and every tick sequence, the
optimized variant's total signal count is at most the windowed variant's
total count plus the number of ticks on which the windowed variant emits
nothing (the ticks whose price equals the current window average); the
unconditional inequality without that tie term does not hold. -/
theorem optimized_le_windowed_plus_quiet_ticks (k : ℤ)
    (w : WindowedMovingAverageStrategy)
    (hw : WindowedMovingAverageStrategy.init k = .ok w)
    (ticks : List MarketDataPoint) :
    ∃ nO nW T,
      optimizedSignalCount k ticks = some nO ∧
      windowedSignalCount k ticks = some nW ∧
      emptyTickCount (runTrace WindowedMovingAverageStrategy.generate_signals
        w ticks) = some T ∧
      nO ≤ nW + T := by
  obtain ⟨h1, hwE⟩ := windowed_init_char hw
  subst hwE
  obtain ⟨pw, po, hpw, hpo, hle⟩ := opt_le_win_ties_aux ticks
    { window_size := k, buffers := fun _ => [], running_sum := fun _ => 0 }
    (OptimizedMovingAverageStrategy.mkState k) h1 h1
  refine ⟨(po.2.map List.length).sum, (pw.2.map List.length).sum,
    (pw.2.filter List.isEmpty).length, ?_, ?_, ?_, hle⟩
  · simp only [optimizedSignalCount, OptimizedMovingAverageStrategy.init]
    rw [run_strategy_eq_runTrace, hpo]
    rfl
  · simp only [windowedSignalCount, hw]
    rw [run_strategy_eq_runTrace, hpw]
    rfl
  · rw [hpw]
    rfl

/-- Witness for `optimized_le_windowed_plus_quiet_ticks` at window size 3 on
the scenario ticks. -/
theorem optimized_le_windowed_plus_quiet_ticks_witness :
    ∃ nO nW T,
      optimizedSignalCount 3 ticksX = some nO ∧
      windowedSignalCount 3 ticksX = some nW ∧
      emptyTickCount (runTrace WindowedMovingAverageStrategy.generate_signals
        wTest3 ticksX) = some T ∧
      nO ≤ nW + T :=
  optimized_le_windowed_plus_quiet_ticks 3 wTest3 rfl ticksX

/-- C1 counterexample: on the single tick (X, 10) with window size 3 the
windowed variant emits no signal (the first price always ties its own
average) while the optimized variant emits one, so the optimized count
exceeds the windowed count. -/
theorem optimized_exceeds_windowed_on_tie :
    windowedSignalCount 3 [tickOne] = some 0 ∧
    optimizedSignalCount 3 [tickOne] = some 1 ∧
    (windowedSignalCount 3 [tickOne]).getD 0 <
      (optimizedSignalCount 3 [tickOne]).getD 0 := by
  refine ⟨by with_unfolding_all rfl, by with_unfolding_all rfl, ?_⟩
  rw [show windowedSignalCount 3 [tickOne] = some 0 from by with_unfolding_all rfl,
    show optimizedSignalCount 3 [tickOne] = some 1 from by with_unfolding_all rfl]
  decide
